import Mathlib

/-!
Verification of the Yanck retrieval subsystem: a shallow embedding of
`src/models/vector_store_manager.py` (per-tenant FAISS flat index plus JSON
metadata sidecar), `src/services/document_service.py` (ingestion pipeline) and
`src/services/query_service.py` (prompt assembly), with theorems checking the
design specification's claims against the embedded code.

Modelling conventions:
* float32 vectors are modelled as lists of rationals (exact arithmetic);
* the on-disk layout (one directory per tenant holding `index.faiss` and
  `metadata.json`) is modelled as an association list from chatbot id to a
  `Store` combining the index contents and the sidecar contents;
* Python exceptions become an explicit error type: `ValueError` is
  `Err.validation`, `FileNotFoundError` is `Err.notFound`, a generic wrapped
  `Exception` is `Err.failure`;
* FAISS `IndexFlatL2.search` is exact brute-force squared-L2 search; its
  max-heap keeps the first-encountered vector on distance ties, which a stable
  insertion sort by distance reproduces.
-/

namespace Yanck

/-- A stored embedding vector (one row of a float32 matrix), as exact rationals. -/
abbrev Vec : Type := List ℚ

/-- The per-chunk metadata dictionary built by
`DocumentService.generate_embeddings` (src/services/document_service.py,
lines 401-408) and stored verbatim in the sidecar's document entries. -/
structure ChunkMeta where
  document_id : String
  filename : String
  chunk_index : Nat
  total_chunks : Nat
deriving DecidableEq, Repr

/-- One entry of the sidecar's `documents` list: the dict
`{"id": ..., "text": ..., **meta}` built in `add_documents`
(src/models/vector_store_manager.py, lines 234-240). -/
structure DocEntry where
  id : Nat
  text : String
  meta : ChunkMeta
deriving DecidableEq, Repr

/-- One tenant's on-disk pair: the FAISS index file (`dimension` is `index.d`,
`vectors` its rows, so `index.ntotal = vectors.length`) together with the
metadata sidecar (`total_documents` and `documents` of `metadata.json`). -/
structure Store where
  dimension : Nat
  vectors : List Vec
  totalDocuments : Nat
  documents : List DocEntry
deriving DecidableEq, Repr

/-- Python exception kinds raised by the embedded code: `ValueError`,
`FileNotFoundError`, and the generic wrapped `Exception`. -/
inductive Err where
  | validation
  | notFound
  | failure
deriving DecidableEq, Repr

/-- The base directory `./data/vector_stores`: chatbot id to that chatbot's
store directory contents. -/
abbrev FS : Type := List (String × Store)

/-- Directory lookup: does a store directory exist for this chatbot, and what
do its two files hold. -/
def lookupStore (fs : FS) (cid : String) : Option Store :=
  match fs with
  | [] => none
  | (c, s) :: rest => if c = cid then some s else lookupStore rest cid

/-- Replace the store stored under `cid` (first occurrence). -/
def updateStore (fs : FS) (cid : String) (s : Store) : FS :=
  match fs with
  | [] => []
  | (c, s₀) :: rest =>
      if c = cid then (c, s) :: rest else (c, s₀) :: updateStore rest cid s

/-- `VectorStoreManager.create_store` (src/models/vector_store_manager.py,
lines 89-144): rejects `dimension <= 0`, rejects an already existing store
directory, otherwise writes an empty index of that dimension and an empty
sidecar. Returns the (possibly unchanged) filesystem and the outcome. -/
def createStore (fs : FS) (cid : String) (dimension : Int) : FS × Except Err Unit :=
  if dimension ≤ 0 then (fs, .error .validation)
  else if (lookupStore fs cid).isSome then (fs, .error .validation)
  else ((cid, ⟨dimension.toNat, [], 0, []⟩) :: fs, .ok ())

/-- `VectorStoreManager.load_store` (src/models/vector_store_manager.py,
lines 146-172): `FileNotFoundError` when no store exists, otherwise the
store's contents. -/
def loadStore (fs : FS) (cid : String) : Except Err Store :=
  match lookupStore fs cid with
  | none => .error .notFound
  | some s => .ok s

/-- `VectorStoreManager.add_documents` (src/models/vector_store_manager.py,
lines 174-259): validates non-empty texts and matching batch lengths, loads
the store, checks `embeddings.shape[1] == index.d` (every row of a numpy
matrix has the same width, so this is the all-rows check), then appends the
vectors to the index, appends document entries with ids continuing from the
sidecar's `total_documents`, bumps `total_documents`, and persists both. -/
def addDocuments (fs : FS) (cid : String) (texts : List String)
    (embeddings : List Vec) (metadata : List ChunkMeta) : FS × Except Err Unit :=
  if texts.isEmpty then (fs, .error .validation)
  else if embeddings.length ≠ texts.length then (fs, .error .validation)
  else if metadata.length ≠ texts.length then (fs, .error .validation)
  else
    match lookupStore fs cid with
    | none => (fs, .error .notFound)
    | some s =>
        if embeddings.all (fun v => v.length = s.dimension) then
          let newDocs := (texts.zip metadata).enum.map
            (fun p => ⟨s.totalDocuments + p.1, p.2.1, p.2.2⟩)
          let s' : Store :=
            ⟨s.dimension, s.vectors ++ embeddings,
              s.totalDocuments + texts.length, s.documents ++ newDocs⟩
          (updateStore fs cid s', .ok ())
        else (fs, .error .validation)

/-- Squared Euclidean distance between two equal-length vectors, the metric of
`faiss.IndexFlatL2`. -/
def sqDist (q v : Vec) : ℚ :=
  (List.zipWith (fun a b => (a - b) ^ 2) q v).sum

/-- Insert an (index, distance) pair into a distance-sorted list, keeping it
before strictly farther entries only: on ties the earlier-scanned (lower
index) entry stays first, matching the FAISS max-heap which replaces an entry
only on a strictly smaller distance. -/
def insertByDist (x : Nat × ℚ) : List (Nat × ℚ) → List (Nat × ℚ)
  | [] => [x]
  | y :: ys => if x.2 ≤ y.2 then x :: y :: ys else y :: insertByDist x ys

/-- Stable sort of (index, distance) pairs by ascending distance: the order in
which `faiss.IndexFlatL2.search` reports hits. -/
def sortByDist : List (Nat × ℚ) → List (Nat × ℚ)
  | [] => []
  | x :: xs => insertByDist x (sortByDist xs)

/-- One element of the list returned by `similarity_search`: the sidecar
document entry's fields plus the `score` and `rank` keys added in
src/models/vector_store_manager.py, lines 318-323. -/
structure SearchResult where
  id : Nat
  text : String
  meta : ChunkMeta
  score : ℚ
  rank : Nat
deriving DecidableEq, Repr

/-- `VectorStoreManager.similarity_search` (src/models/vector_store_manager.py,
lines 261-345): rejects `k <= 0`, loads index and sidecar (`FileNotFoundError`
when missing), returns `[]` for an empty index, rejects a query whose width
differs from `index.d`, clamps `k` to `ntotal`, runs the exact L2 search, and
resolves each hit index against the sidecar (hits whose index is out of the
sidecar's range are silently dropped; `rank` is the 1-based position among the
raw hits). -/
def similaritySearch (fs : FS) (cid : String) (query : Vec) (k : Int) :
    Except Err (List SearchResult) :=
  if k ≤ 0 then .error .validation
  else
    match lookupStore fs cid with
    | none => .error .notFound
    | some s =>
        if s.vectors.length = 0 then .ok []
        else if query.length ≠ s.dimension then .error .validation
        else
          let kk := min k.toNat s.vectors.length
          let scored := s.vectors.enum.map (fun p => (p.1, sqDist query p.2))
          let hits := (sortByDist scored).take kk
          .ok (hits.enum.filterMap (fun p =>
            if h : p.2.1 < s.documents.length then
              let d := s.documents.get ⟨p.2.1, h⟩
              some ⟨d.id, d.text, d.meta, p.2.2, p.1 + 1⟩
            else none))

/-! ## File-operation trace of add_documents

The durable-write behaviour of `add_documents` is captured as the ordered list
of file-mutating operations it performs (reads omitted). -/

/-- The two on-disk artifacts of a tenant's store. -/
inductive Artifact where
  | indexFile
  | sidecarFile
deriving DecidableEq, Repr

/-- Whether a path is the artifact's final location (`index.faiss` /
`metadata.json`) or a temporary location. -/
inductive Loc where
  | temp
  | final
deriving DecidableEq, Repr

/-- A file-mutating operation: a whole-file write to a location, or an atomic
rename of an artifact's temporary file onto its final location. -/
inductive FsOp where
  | write (a : Artifact) (l : Loc)
  | rename (a : Artifact)
deriving DecidableEq, Repr

/-- The file-mutating operations performed by `add_documents`
(src/models/vector_store_manager.py, lines 174-259), in program order, for the
given inputs: nothing on a validation or not-found failure; on the success
path `faiss.write_index(index, index_path)` (line 226) writes the index file
directly to its final path, then `json.dump` under
`open(metadata_path, 'w')` (lines 245-246) writes the sidecar directly to its
final path. No temporary file and no rename appears anywhere in the function. -/
def addDocumentsOps (fs : FS) (cid : String) (texts : List String)
    (embeddings : List Vec) (metadata : List ChunkMeta) : List FsOp :=
  if texts.isEmpty then []
  else if embeddings.length ≠ texts.length then []
  else if metadata.length ≠ texts.length then []
  else
    match lookupStore fs cid with
    | none => []
    | some s =>
        if embeddings.all (fun v => v.length = s.dimension) then
          [.write .indexFile .final, .write .sidecarFile .final]
        else []

/-- Modelled from the spec's claim wording (for comparison with the trace the
source produces): the durable-write sequence writes the index file to a
temporary location, writes the sidecar file to a temporary location, then
atomically renames both into place, index first or sidecar first. -/
def claimedDurableWriteSeq (ops : List FsOp) : Prop :=
  ops = [.write .indexFile .temp, .write .sidecarFile .temp,
         .rename .indexFile, .rename .sidecarFile] ∨
  ops = [.write .indexFile .temp, .write .sidecarFile .temp,
         .rename .sidecarFile, .rename .indexFile]

instance (ops : List FsOp) : Decidable (claimedDurableWriteSeq ops) := by
  unfold claimedDurableWriteSeq; infer_instance

/-! ## Ingestion pipeline: DocumentService.generate_embeddings

External collaborators are passed in as parameters: `splitText` stands for
`RecursiveCharacterTextSplitter.split_text`, `enc` for
`EmbeddingManager.encode` on one chunk (a batch encode is its row-wise map),
`dim` for `EmbeddingManager.get_embedding_dimension()`. Each uploaded
document carries the outcome of `extract_text` on it: `none` when extraction
raised, `some t` when it returned text `t`. -/

/-- Final status of a source document row, as written to the `documents`
table. -/
inductive DocStatus where
  | uploaded
  | processing
  | completed
  | error
deriving DecidableEq, Repr

/-- Final status of the chatbot row, as written to the `chatbots` table. -/
inductive ChatbotStatus where
  | creating
  | processing
  | ready
  | error
deriving DecidableEq, Repr

/-- A vector-store mutation attempted by the pipeline. -/
inductive StoreOp where
  | create (dim : Int)
  | add (texts : List String)
deriving DecidableEq, Repr

/-- One row of the `SELECT ... WHERE chatbot_id = ? AND status = 'uploaded'`
query (src/services/document_service.py, lines 333-341), with `extract` the
outcome of `extract_text` on its file: `none` if extraction raised, `some t`
if it returned `t`. -/
structure UploadedDoc where
  id : String
  filename : String
  extract : Option String
deriving DecidableEq, Repr

/-- Python truthiness-or-blank test `not text or not text.strip()`
(src/services/document_service.py, line 380): true exactly when every
character of the text is whitespace — which covers the empty string — since
`str.strip()` with no argument removes whitespace from both ends. -/
def isBlank (t : String) : Bool := t.toList.all Char.isWhitespace

/-- The per-document body of the ingestion loop
(src/services/document_service.py, lines 361-431): extraction error or blank
text marks the document `error` and contributes no chunks; otherwise the text
is split and each chunk is paired with its metadata dict, and the document is
marked `completed`. -/
def processDoc (splitText : String → List String) (d : UploadedDoc) :
    DocStatus × List (String × ChunkMeta) :=
  match d.extract with
  | none => (.error, [])
  | some t =>
      if isBlank t then (.error, [])
      else
        let chunks := splitText t
        (.completed,
          chunks.enum.map (fun p => (p.2, ⟨d.id, d.filename, p.1, chunks.length⟩)))

deriving instance DecidableEq for Except

/-- The observable outcome of one `generate_embeddings` run: the status each
processed document ends in (in query order), the last chatbot status written,
the vector-store filesystem afterwards, the vector-store mutations attempted,
and whether the call returned or raised. -/
structure RunResult where
  docStatuses : List (String × DocStatus)
  chatbotStatus : ChatbotStatus
  fs : FS
  storeOps : List StoreOp
  outcome : Except Err Unit
deriving DecidableEq, Repr

/-- `DocumentService.generate_embeddings` (src/services/document_service.py,
lines 312-487). Control flow: no uploaded documents raises `ValueError`,
caught by the outer handler which marks the chatbot `error` and re-raises a
wrapped `Exception`; otherwise the chatbot is marked `processing`, each
document is processed per `processDoc`, zero accumulated chunks raises (outer
handler again: chatbot `error`, wrapped `Exception`, no store call attempted);
otherwise the chunks are encoded in one batch, the store is loaded or, on
`FileNotFoundError`, created at the provider dimension, the batch is appended
via `add_documents`, and the chatbot is marked `ready`. Any store failure
falls to the outer handler (chatbot `error`, wrapped `Exception`). -/
def generateEmbeddings (splitText : String → List String) (enc : String → Vec)
    (dim : Int) (cid : String) (docs : List UploadedDoc) (fs : FS) : RunResult :=
  if docs.isEmpty then ⟨[], .error, fs, [], .error .failure⟩
  else
    let processed := docs.map (fun d => (d, processDoc splitText d))
    let docStatuses := processed.map (fun p => (p.1.id, p.2.1))
    let allPairs := processed.flatMap (fun p => p.2.2)
    let allChunks := allPairs.map (fun p => p.1)
    let allMetadata := allPairs.map (fun p => p.2)
    if allChunks.isEmpty then ⟨docStatuses, .error, fs, [], .error .failure⟩
    else
      let embeddings := allChunks.map enc
      let addPhase : FS → List StoreOp → RunResult := fun fs₁ ops =>
        match addDocuments fs₁ cid allChunks embeddings allMetadata with
        | (fs₂, .ok ()) =>
            ⟨docStatuses, .ready, fs₂, ops ++ [.add allChunks], .ok ()⟩
        | (fs₂, .error _) =>
            ⟨docStatuses, .error, fs₂, ops ++ [.add allChunks], .error .failure⟩
      match loadStore fs cid with
      | .ok _ => addPhase fs []
      | .error _ =>
          match createStore fs cid dim with
          | (fs₁, .ok ()) => addPhase fs₁ [.create dim]
          | (fs₁, .error _) =>
              ⟨docStatuses, .error, fs₁, [.create dim], .error .failure⟩

/-! ## Prompt assembly: QueryService.generate_response history rendering -/

/-- One conversation-history entry, a `{"role": ..., "content": ...}` dict. -/
structure HistMsg where
  role : String
  content : String
deriving DecidableEq, Repr

/-- The body of the history loop in `QueryService.generate_response`
(src/services/query_service.py, lines 221-227): a `"user"` entry renders as a
`User:` line, an `"assistant"` entry as an `Assistant:` line, and any other
role appends nothing. -/
def renderMsg (m : HistMsg) : Option String :=
  if m.role = "user" then some ("User: " ++ m.content)
  else if m.role = "assistant" then some ("Assistant: " ++ m.content)
  else none

/-- The `history_parts` list accumulated by the loop
(src/services/query_service.py, lines 220-227), i.e. the rendered lines in
the history's given order with unrenderable entries skipped. -/
def historyParts (history : List HistMsg) : List String :=
  history.filterMap renderMsg

/-- The `history_text` block, `"\n".join(history_parts)`
(src/services/query_service.py, line 228). -/
def historyText (history : List HistMsg) : String :=
  String.intercalate "\x0a" (historyParts history)

/-! ## Helper lemmas -/

theorem sqDist_cons (a b : ℚ) (as bs : List ℚ) :
    sqDist (a :: as) (b :: bs) = (a - b) ^ 2 + sqDist as bs := by
  simp [sqDist]

theorem sqDist_self (q : Vec) : sqDist q q = 0 := by
  induction q with
  | nil => rfl
  | cons a as ih => rw [sqDist_cons, ih, sub_self]; norm_num

theorem sqDist_nonneg (q v : Vec) : 0 ≤ sqDist q v := by
  induction q generalizing v with
  | nil => simp [sqDist]
  | cons a as ih =>
      cases v with
      | nil => simp [sqDist]
      | cons b bs => rw [sqDist_cons]; exact add_nonneg (sq_nonneg _) (ih bs)

theorem sqDist_eq_zero_iff {q v : Vec} (h : q.length = v.length) :
    sqDist q v = 0 ↔ q = v := by
  induction q generalizing v with
  | nil =>
      cases v with
      | nil => simp [sqDist]
      | cons b bs => simp at h
  | cons a as ih =>
      cases v with
      | nil => simp at h
      | cons b bs =>
          rw [sqDist_cons,
            add_eq_zero_iff_of_nonneg (sq_nonneg _) (sqDist_nonneg as bs),
            sq_eq_zero_iff, sub_eq_zero, ih (by simpa using h)]
          simp

theorem sqDist_pos_of_ne {q v : Vec} (h : q.length = v.length) (hne : v ≠ q) :
    0 < sqDist q v :=
  lt_of_le_of_ne (sqDist_nonneg q v)
    (fun h0 => hne ((sqDist_eq_zero_iff h).mp h0.symm).symm)

theorem insertByDist_perm (x : Nat × ℚ) (l : List (Nat × ℚ)) :
    (insertByDist x l).Perm (x :: l) := by
  induction l with
  | nil => simp [insertByDist]
  | cons y ys ih =>
      by_cases h : x.2 ≤ y.2
      · simp [insertByDist, h]
      · simp only [insertByDist, if_neg h]
        exact (ih.cons y).trans (List.Perm.swap x y ys)

theorem sortByDist_perm (l : List (Nat × ℚ)) : (sortByDist l).Perm l := by
  induction l with
  | nil => simp [sortByDist]
  | cons x xs ih => exact (insertByDist_perm x (sortByDist xs)).trans (ih.cons x)

theorem length_sortByDist (l : List (Nat × ℚ)) :
    (sortByDist l).length = l.length :=
  (sortByDist_perm l).length_eq

theorem mem_sortByDist {p : Nat × ℚ} {l : List (Nat × ℚ)} :
    p ∈ sortByDist l ↔ p ∈ l :=
  (sortByDist_perm l).mem_iff

theorem pairwise_insertByDist {x : Nat × ℚ} {l : List (Nat × ℚ)}
    (h : l.Pairwise (fun a b => a.2 ≤ b.2)) :
    (insertByDist x l).Pairwise (fun a b => a.2 ≤ b.2) := by
  induction l with
  | nil => simp [insertByDist]
  | cons y ys ih =>
      obtain ⟨hy, hys⟩ := List.pairwise_cons.1 h
      by_cases hx : x.2 ≤ y.2
      · simp only [insertByDist, if_pos hx]
        refine List.pairwise_cons.2 ⟨?_, h⟩
        intro z hz
        rcases List.mem_cons.1 hz with rfl | hz
        · exact hx
        · exact le_trans hx (hy z hz)
      · simp only [insertByDist, if_neg hx]
        refine List.pairwise_cons.2 ⟨?_, ih hys⟩
        intro z hz
        rcases List.mem_cons.1 ((insertByDist_perm x ys).mem_iff.1 hz) with rfl | hz
        · exact le_of_lt (lt_of_not_le hx)
        · exact hy z hz

theorem pairwise_sortByDist (l : List (Nat × ℚ)) :
    (sortByDist l).Pairwise (fun a b => a.2 ≤ b.2) := by
  induction l with
  | nil => simp [sortByDist]
  | cons x xs ih => exact pairwise_insertByDist ih

theorem sortByDist_head_of_strict_min {l : List (Nat × ℚ)} {x : Nat × ℚ}
    (hx : x ∈ l) (hmin : ∀ y ∈ l, y ≠ x → x.2 < y.2) :
    ∃ t, sortByDist l = x :: t := by
  rcases hs : sortByDist l with _ | ⟨h, t⟩
  · exact absurd (mem_sortByDist.2 hx) (by simp [hs])
  · have hh : h ∈ l := mem_sortByDist.1 (by simp [hs])
    by_cases he : h = x
    · exact ⟨t, by rw [← he]⟩
    · exfalso
      have hx' : x ∈ h :: t := hs ▸ mem_sortByDist.2 hx
      have hxt : x ∈ t := (List.mem_cons.1 hx').resolve_left (fun e => he e.symm)
      have hsorted := pairwise_sortByDist l
      rw [hs] at hsorted
      have hle : h.2 ≤ x.2 := (List.pairwise_cons.1 hsorted).1 x hxt
      exact lt_irrefl _ (lt_of_lt_of_le (hmin h hh he) hle)

theorem filterMap_eq_map_of_some {α β : Type _} (f : α → Option β) (g : α → β) :
    ∀ l : List α, (∀ x ∈ l, f x = some (g x)) → l.filterMap f = l.map g := by
  intro l h
  induction l with
  | nil => rfl
  | cons x xs ih =>
      rw [List.filterMap_cons, h x (List.mem_cons_self x xs), List.map_cons,
        ih (fun y hy => h y (List.mem_cons_of_mem x hy))]

theorem snd_mem_of_mem_enum {α : Type _} {p : Nat × α} {l : List α}
    (h : p ∈ l.enum) : p.2 ∈ l := by
  have := List.mem_map_of_mem Prod.snd h
  rwa [List.enum_map_snd] at this

theorem mem_enum_spec {α : Type _} {p : Nat × α} {l : List α} (h : p ∈ l.enum) :
    ∃ hlt : p.1 < l.length, l.get ⟨p.1, hlt⟩ = p.2 := by
  rw [List.mem_iff_getElem] at h
  obtain ⟨i, hi, hgi⟩ := h
  rw [List.getElem_enum] at hgi
  have hil : i < l.length := by rwa [List.enum_length] at hi
  cases p with
  | mk p1 p2 =>
      cases hgi
      exact ⟨hil, rfl⟩

theorem pairwise_enum_snd {α : Type _} {R : α → α → Prop} :
    ∀ (l : List α) (n : Nat), l.Pairwise R →
      (l.enumFrom n).Pairwise (fun a b => R a.2 b.2) := by
  intro l
  induction l with
  | nil => intro n _; simp
  | cons x xs ih =>
      intro n h
      obtain ⟨hx, hxs⟩ := List.pairwise_cons.1 h
      refine List.pairwise_cons.2 ⟨?_, ih (n + 1) hxs⟩
      intro z hz
      have hz2 : z.2 ∈ xs := by
        have := List.mem_map_of_mem Prod.snd hz
        rwa [List.enumFrom_map_snd] at this
      exact hx z.2 hz2

theorem get_mem_enum {α : Type _} (l : List α) (i : Nat) (hi : i < l.length) :
    (i, l.get ⟨i, hi⟩) ∈ l.enum := by
  rw [List.mem_iff_getElem]
  refine ⟨i, by simpa [List.enum_length] using hi, ?_⟩
  rw [List.getElem_enum]
  rfl

theorem enum_map_add_fst {α : Type _} (l : List α) (c : Nat) :
    l.enum.map (fun p => c + p.1) = List.range' c l.length := by
  rw [show (fun p : Nat × α => c + p.1) = ((fun i => c + i) ∘ Prod.fst) from rfl,
    ← List.map_map, List.enum_map_fst, ← List.range'_eq_map_range]

theorem lookupStore_cons_self (cid : String) (s : Store) (rest : FS) :
    lookupStore ((cid, s) :: rest) cid = some s := by
  simp [lookupStore]

theorem lookupStore_updateStore {fs : FS} {cid : String} {s : Store}
    (s' : Store) (h : lookupStore fs cid = some s) :
    lookupStore (updateStore fs cid s') cid = some s' := by
  induction fs with
  | nil => simp [lookupStore] at h
  | cons p rest ih =>
      by_cases hc : p.1 = cid
      · cases p
        simp_all [lookupStore, updateStore]
      · cases p
        simp_all [lookupStore, updateStore]

theorem addDocuments_ok {fs : FS} {cid : String} {s : Store}
    {texts : List String} {embeddings : List Vec} {metadata : List ChunkMeta}
    (hs : lookupStore fs cid = some s)
    (hne : texts ≠ [])
    (hemb : embeddings.length = texts.length)
    (hmeta : metadata.length = texts.length)
    (hdim : ∀ v ∈ embeddings, v.length = s.dimension) :
    addDocuments fs cid texts embeddings metadata =
      (updateStore fs cid
        ⟨s.dimension, s.vectors ++ embeddings, s.totalDocuments + texts.length,
          s.documents ++ (texts.zip metadata).enum.map
            (fun p => ⟨s.totalDocuments + p.1, p.2.1, p.2.2⟩)⟩, .ok ()) := by
  have h1 : texts.isEmpty = false := by
    cases texts with
    | nil => exact absurd rfl hne
    | cons a as => rfl
  have hall : embeddings.all (fun v => v.length = s.dimension) = true := by
    rw [List.all_eq_true]
    intro v hv
    exact decide_eq_true (hdim v hv)
  simp [addDocuments, h1, hemb, hmeta, hs, hall]

theorem isEmpty_eq_false_of_ne {α : Type _} {l : List α} (h : l ≠ []) :
    l.isEmpty = false := by
  cases l with
  | nil => exact absurd rfl h
  | cons a as => rfl

/-! ## Claim theorems -/

/-- C1: for a store whose index vector count, sidecar `total_documents` and
sidecar list length share a common value, a valid `add_documents` batch of
`n` chunks succeeds, all three counters become the previous common value plus
`n`, and the `n` appended records carry sequential zero-based ids continuing
from the previous sidecar count (record `i` gets id `previous_count + i`). -/
theorem add_documents_counts_and_ids (fs : FS) (cid : String) (s : Store)
    (texts : List String) (embeddings : List Vec) (metadata : List ChunkMeta)
    (hs : lookupStore fs cid = some s)
    (hne : texts ≠ [])
    (hemb : embeddings.length = texts.length)
    (hmeta : metadata.length = texts.length)
    (hdim : ∀ v ∈ embeddings, v.length = s.dimension)
    (hcount : s.totalDocuments = s.documents.length)
    (hvec : s.vectors.length = s.documents.length) :
    ∃ s', (addDocuments fs cid texts embeddings metadata).2 = .ok () ∧
      lookupStore (addDocuments fs cid texts embeddings metadata).1 cid = some s' ∧
      s'.totalDocuments = s.documents.length + texts.length ∧
      s'.documents.length = s.documents.length + texts.length ∧
      s'.vectors.length = s.documents.length + texts.length ∧
      (s'.documents.drop s.documents.length).map DocEntry.id =
        List.range' s.documents.length texts.length := by
  rw [addDocuments_ok hs hne hemb hmeta hdim]
  refine ⟨_, rfl, lookupStore_updateStore _ hs, ?_, ?_, ?_, ?_⟩
  · simp [hcount]
  · simp [List.length_append, List.enum_length, List.length_zip, hmeta, hcount]
  · simp [List.length_append, hvec, hemb]
  · rw [List.drop_left, List.map_map]
    have hc : (DocEntry.id ∘ fun p : Nat × (String × ChunkMeta) =>
        (⟨s.totalDocuments + p.1, p.2.1, p.2.2⟩ : DocEntry)) =
        fun p : Nat × (String × ChunkMeta) => s.totalDocuments + p.1 := rfl
    rw [hc, enum_map_add_fst, List.length_zip, hmeta, min_self, hcount]

/-- Witness for C1: adding one chunk to a store holding one document. -/
theorem add_documents_counts_and_ids_witness :
    ∃ s', (addDocuments [("t1", ⟨1, [[5]], 1, [⟨0, "x", ⟨"d", "f", 0, 1⟩⟩]⟩)] "t1"
        ["y"] [[2]] [⟨"d", "g", 0, 1⟩]).2 = .ok () ∧
      lookupStore (addDocuments [("t1", ⟨1, [[5]], 1, [⟨0, "x", ⟨"d", "f", 0, 1⟩⟩]⟩)] "t1"
        ["y"] [[2]] [⟨"d", "g", 0, 1⟩]).1 "t1" = some s' ∧
      s'.totalDocuments = 2 ∧
      s'.documents.length = 2 ∧
      s'.vectors.length = 2 ∧
      (s'.documents.drop 1).map DocEntry.id = List.range' 1 1 :=
  add_documents_counts_and_ids [("t1", ⟨1, [[5]], 1, [⟨0, "x", ⟨"d", "f", 0, 1⟩⟩]⟩)]
    "t1" ⟨1, [[5]], 1, [⟨0, "x", ⟨"d", "f", 0, 1⟩⟩]⟩ ["y"] [[2]] [⟨"d", "g", 0, 1⟩]
    rfl (by decide) rfl rfl (by decide) rfl rfl

/-- C3 as stated is false: a successful `add_documents` call performs no
temporary-location write and no rename at all, so its mutating trace is not
the claimed write-temp/write-temp/rename/rename sequence. -/
theorem add_documents_write_sequence_counterexample :
    ¬ claimedDurableWriteSeq
      (addDocumentsOps [("t3", ⟨1, [], 0, []⟩)] "t3" ["a"] [[1]]
        [⟨"d", "f", 0, 1⟩]) := by
  decide

/-- C3 amended: on a valid `add_documents` call the durable-write sequence is
two direct in-place writes — the index file first, then the sidecar file —
with no temporary locations and no renames. -/
theorem add_documents_write_sequence (fs : FS) (cid : String) (s : Store)
    (texts : List String) (embeddings : List Vec) (metadata : List ChunkMeta)
    (hs : lookupStore fs cid = some s)
    (hne : texts ≠ [])
    (hemb : embeddings.length = texts.length)
    (hmeta : metadata.length = texts.length)
    (hdim : ∀ v ∈ embeddings, v.length = s.dimension) :
    addDocumentsOps fs cid texts embeddings metadata =
      [.write .indexFile .final, .write .sidecarFile .final] := by
  have hall : embeddings.all (fun v => v.length = s.dimension) = true := by
    rw [List.all_eq_true]
    intro v hv
    exact decide_eq_true (hdim v hv)
  simp [addDocumentsOps, isEmpty_eq_false_of_ne hne, hemb, hmeta, hs, hall]

/-- Witness for the amended C3 on a concrete valid call. -/
theorem add_documents_write_sequence_witness :
    addDocumentsOps [("t3w", ⟨1, [], 0, []⟩)] "t3w" ["a"] [[1]]
        [⟨"d", "f", 0, 1⟩] =
      [.write .indexFile .final, .write .sidecarFile .final] :=
  add_documents_write_sequence _ _ _ _ _ _ rfl (by decide) rfl rfl (by decide)

/-- C5: `similarity_search` on an existing store holding zero vectors returns
the empty list, not an error, for any positive `k`. -/
theorem similarity_search_empty_store (fs : FS) (cid : String) (s : Store)
    (query : Vec) (k : Int)
    (hs : lookupStore fs cid = some s)
    (hempty : s.vectors = [])
    (hk : 0 < k) :
    similaritySearch fs cid query k = .ok [] := by
  simp [similaritySearch, hs, hempty, hk.not_le]

/-- Witness for C5: an empty two-dimensional store searched with k = 7. -/
theorem similarity_search_empty_store_witness :
    similaritySearch [("t5", ⟨2, [], 0, []⟩)] "t5" [1, 1] 7 = .ok [] :=
  similarity_search_empty_store _ _ _ _ _ rfl rfl (by decide)

/-- C6 as stated is false: on an existing store holding zero vectors, a query
whose width (1) differs from the index dimension (2) returns `[]` with k = 1
instead of failing with a validation error, because the empty-store check
runs before the dimension check. -/
theorem similarity_search_dim_check_counterexample :
    similaritySearch [("t6", ⟨2, [], 0, []⟩)] "t6" [1] 1 = .ok [] ∧
      ([1] : Vec).length ≠ 2 := by
  refine ⟨?_, by decide⟩
  decide

/-- C6 amended: for every existing store holding at least one vector and
every positive `k`, `similarity_search` fails with a validation error
whenever the query width differs from the index dimension. -/
theorem similarity_search_dim_check (fs : FS) (cid : String) (s : Store)
    (query : Vec) (k : Int)
    (hs : lookupStore fs cid = some s)
    (hne : s.vectors ≠ [])
    (hk : 0 < k)
    (hw : query.length ≠ s.dimension) :
    similaritySearch fs cid query k = .error .validation := by
  have hlen : s.vectors.length ≠ 0 := by
    simpa [List.length_eq_zero] using hne
  simp [similaritySearch, hs, hk.not_le, hlen, hw]

/-- Witness for the amended C6: one stored vector, query of the wrong width. -/
theorem similarity_search_dim_check_witness :
    similaritySearch [("t6w", ⟨2, [[1, 1]], 1, [⟨0, "x", ⟨"d", "f", 0, 1⟩⟩]⟩)]
        "t6w" [1] 3 = .error .validation :=
  similarity_search_dim_check _ _ _ _ _ rfl (by decide) (by decide) (by decide)

/-- C7: `create_store` fails with a validation error when the dimension is
nonpositive or a store already exists for the tenant, and in either case the
filesystem — in particular any existing store — is left unchanged. -/
theorem create_store_rejects (fs : FS) (cid : String) (dim : Int)
    (h : dim ≤ 0 ∨ (lookupStore fs cid).isSome) :
    createStore fs cid dim = (fs, .error .validation) ∧
      lookupStore (createStore fs cid dim).1 cid = lookupStore fs cid := by
  have hmain : createStore fs cid dim = (fs, .error .validation) := by
    rcases h with h | h
    · simp [createStore, h]
    · by_cases hd : dim ≤ 0
      · simp [createStore, hd]
      · simp [createStore, hd, h]
  exact ⟨hmain, by rw [hmain]⟩

/-- Witness for C7: creating over an already existing store. -/
theorem create_store_rejects_witness :
    createStore [("t7", ⟨3, [], 0, []⟩)] "t7" 3 =
        ([("t7", ⟨3, [], 0, []⟩)], .error .validation) ∧
      lookupStore (createStore [("t7", ⟨3, [], 0, []⟩)] "t7" 3).1 "t7" =
        lookupStore [("t7", ⟨3, [], 0, []⟩)] "t7" :=
  create_store_rejects _ _ _ (Or.inr (by decide))

/-- C10: prompt assembly keeps exactly the history entries whose role is
"user" or "assistant", rendering each kept entry as a labeled transcript line
in the history's original order; all other roles are silently omitted. -/
theorem history_rendering_filters_roles (history : List HistMsg) :
    historyParts history =
      (history.filter (fun m => m.role = "user" ∨ m.role = "assistant")).map
        (fun m => (if m.role = "user" then "User: " else "Assistant: ") ++
          m.content) := by
  induction history with
  | nil => rfl
  | cons m ms ih =>
      unfold historyParts at ih ⊢
      by_cases h1 : m.role = "user"
      · rw [List.filterMap_cons_some (show renderMsg m = some ("User: " ++ m.content) by
            simp [renderMsg, h1]),
          List.filter_cons_of_pos (by simp [h1]), List.map_cons, if_pos h1, ih]
      · by_cases h2 : m.role = "assistant"
        · rw [List.filterMap_cons_some (show renderMsg m = some ("Assistant: " ++ m.content) by
              simp [renderMsg, h1, h2]),
            List.filter_cons_of_pos (by simp [h2]), List.map_cons, if_neg h1, ih]
        · rw [List.filterMap_cons_none (show renderMsg m = none by
              simp [renderMsg, h1, h2]),
            List.filter_cons_of_neg (by simp [h1, h2]), ih]

theorem similaritySearch_unique_zero (fs : FS) (cid : String) (s : Store)
    (q : Vec) (i : Nat)
    (hs : lookupStore fs cid = some s)
    (hi : i < s.vectors.length)
    (hq : s.vectors.get ⟨i, hi⟩ = q)
    (hqdim : q.length = s.dimension)
    (hvdim : ∀ v ∈ s.vectors, v.length = s.dimension)
    (huniq : ∀ j (hj : j < s.vectors.length), s.vectors.get ⟨j, hj⟩ = q → j = i)
    (hdoc : i < s.documents.length)
    (e : DocEntry) (he : s.documents.get ⟨i, hdoc⟩ = e) :
    similaritySearch fs cid q 1 = .ok [⟨e.id, e.text, e.meta, 0, 1⟩] := by
  have hlen : s.vectors.length ≠ 0 := by omega
  have hmem : ((i, (0 : ℚ)) : Nat × ℚ) ∈
      s.vectors.enum.map (fun p => (p.1, sqDist q p.2)) := by
    have h1 := get_mem_enum s.vectors i hi
    rw [hq] at h1
    have h2 := List.mem_map_of_mem (fun p : Nat × Vec => (p.1, sqDist q p.2)) h1
    simpa [sqDist_self] using h2
  have hmin : ∀ y ∈ s.vectors.enum.map (fun p => (p.1, sqDist q p.2)),
      y ≠ ((i, (0 : ℚ)) : Nat × ℚ) → (0 : ℚ) < y.2 := by
    intro y hy hne'
    obtain ⟨p, hp, rfl⟩ := List.mem_map.1 hy
    obtain ⟨hplt, hpget⟩ := mem_enum_spec hp
    by_cases hji : p.1 = i
    · exfalso
      apply hne'
      have hfin : (⟨p.1, hplt⟩ : Fin s.vectors.length) = ⟨i, hi⟩ := by
        simp [hji]
      have hpq : p.2 = q := by rw [← hpget, hfin, hq]
      exact Prod.ext hji (by rw [hpq, sqDist_self])
    · have hple : p.2 ∈ s.vectors := by
        rw [← hpget]; exact List.get_mem _ _ _
      have hpne : p.2 ≠ q := fun heq => hji (huniq p.1 hplt (hpget.trans heq))
      exact sqDist_pos_of_ne (by rw [hqdim, hvdim p.2 hple]) hpne
  obtain ⟨t, ht⟩ := sortByDist_head_of_strict_min hmem hmin
  have hw : ¬ q.length ≠ s.dimension := by simp [hqdim]
  simp only [similaritySearch, hs]
  rw [if_neg (by norm_num : ¬ (1 : Int) ≤ 0), if_neg hlen, if_neg hw]
  have hkk : min (Int.toNat 1) s.vectors.length = 1 :=
    Nat.min_eq_left (by omega)
  rw [hkk, ht]
  have htake : ((i, (0 : ℚ)) :: t).take 1 = [(i, (0 : ℚ))] := rfl
  rw [htake]
  simp [hdoc]
  refine ⟨?_, ?_, ?_⟩ <;> rw [← he, List.get_eq_getElem]

/-- C2 as stated is false: in a fresh one-dimensional store with batch
`texts = ["a", "b"]`, `vectors = [[1], [1]]` (a duplicate vector), searching
with the second chunk's vector `[1]` and k = 1 returns chunk "a" (id 0) at
distance 0, not chunk "b" — the claim demands that exact vector's own chunk. -/
theorem similarity_search_roundtrip_counterexample :
    similaritySearch (addDocuments (createStore [] "t2c" 1).1 "t2c" ["a", "b"]
        [[1], [1]] [⟨"d", "f", 0, 2⟩, ⟨"d", "f", 1, 2⟩]).1 "t2c" [1] 1 =
      Except.ok [⟨0, "a", ⟨"d", "f", 0, 2⟩, 0, 1⟩] ∧
    (Except.ok [(⟨0, "a", ⟨"d", "f", 0, 2⟩, 0, 1⟩ : SearchResult)] :
        Except Err (List SearchResult)) ≠
      Except.ok [(⟨1, "b", ⟨"d", "f", 1, 2⟩, 0, 1⟩ : SearchResult)] := by
  refine ⟨?_, by decide⟩
  have h1 : (addDocuments (createStore [] "t2c" 1).1 "t2c" ["a", "b"]
      [[1], [1]] [⟨"d", "f", 0, 2⟩, ⟨"d", "f", 1, 2⟩]).1 =
      [("t2c", ⟨1, [[1], [1]], 2,
        [⟨0, "a", ⟨"d", "f", 0, 2⟩⟩, ⟨1, "b", ⟨"d", "f", 1, 2⟩⟩]⟩)] := rfl
  rw [h1]
  have hs : lookupStore [("t2c", (⟨1, [[1], [1]], 2,
      [⟨0, "a", ⟨"d", "f", 0, 2⟩⟩, ⟨1, "b", ⟨"d", "f", 1, 2⟩⟩]⟩ : Store))] "t2c" =
      some ⟨1, [[1], [1]], 2,
        [⟨0, "a", ⟨"d", "f", 0, 2⟩⟩, ⟨1, "b", ⟨"d", "f", 1, 2⟩⟩]⟩ := rfl
  simp only [similaritySearch, hs]
  norm_num
  have hmap : List.map (fun p => (p.1, sqDist [1] p.2)) ([[1], [1]] : List Vec).enum
      = [(0, (0 : ℚ)), (1, (0 : ℚ))] := by
    have he : ([[1], [1]] : List Vec).enum = [(0, [1]), (1, [1])] := rfl
    rw [he]
    simp [sqDist_self]
  rw [hmap]
  have hsort : sortByDist [(0, (0 : ℚ)), (1, (0 : ℚ))] =
      [(0, (0 : ℚ)), (1, (0 : ℚ))] := by
    simp [sortByDist, insertByDist]
  rw [hsort]
  simp

/-- C2 amended: for every valid equal-length batch added to a freshly created
store, searching with k = 1 on an added vector that occurs at exactly one
position of the batch returns exactly that position's chunk (its text and
metadata, under the sequential id) as the single result, with distance score
0 and rank 1. (When the vector occurs at several positions, the search
resolves to the earliest of them, as the counterexample shows.) -/
theorem similarity_search_roundtrip (fs₀ : FS) (cid : String) (dim : Int)
    (texts : List String) (vecs : List Vec) (metas : List ChunkMeta) (i : Nat)
    (hnew : lookupStore fs₀ cid = none)
    (hd : 0 < dim)
    (hne : texts ≠ [])
    (hlenv : vecs.length = texts.length)
    (hlenm : metas.length = texts.length)
    (hdim : ∀ v ∈ vecs, v.length = dim.toNat)
    (hi : i < vecs.length)
    (huniq : ∀ j (hj : j < vecs.length), vecs.get ⟨j, hj⟩ = vecs.get ⟨i, hi⟩ → j = i) :
    ∃ (hit : i < texts.length) (hmt : i < metas.length),
      similaritySearch
        (addDocuments (createStore fs₀ cid dim).1 cid texts vecs metas).1 cid
        (vecs.get ⟨i, hi⟩) 1 =
        .ok [⟨i, texts.get ⟨i, hit⟩, metas.get ⟨i, hmt⟩, 0, 1⟩] := by
  have hit : i < texts.length := by omega
  have hmt : i < metas.length := by omega
  refine ⟨hit, hmt, ?_⟩
  have hcs : (createStore fs₀ cid dim).1 = (cid, ⟨dim.toNat, [], 0, []⟩) :: fs₀ := by
    simp [createStore, hnew, not_le.2 hd]
  rw [hcs]
  have hs₁ : lookupStore ((cid, (⟨dim.toNat, [], 0, []⟩ : Store)) :: fs₀) cid =
      some ⟨dim.toNat, [], 0, []⟩ := lookupStore_cons_self _ _ _
  rw [addDocuments_ok hs₁ hne hlenv hlenm hdim]
  dsimp only
  simp only [List.nil_append, Nat.zero_add]
  have hdoc : i < ((texts.zip metas).enum.map
      (fun p => (⟨p.1, p.2.1, p.2.2⟩ : DocEntry))).length := by
    simp [List.enum_length, List.length_zip]
    omega
  have he : ((texts.zip metas).enum.map
      (fun p => (⟨p.1, p.2.1, p.2.2⟩ : DocEntry))).get ⟨i, hdoc⟩ =
      ⟨i, texts.get ⟨i, hit⟩, metas.get ⟨i, hmt⟩⟩ := by
    rw [List.get_eq_getElem, List.getElem_map, List.getElem_enum, List.getElem_zip]
    rw [List.get_eq_getElem, List.get_eq_getElem]
  exact similaritySearch_unique_zero _ cid
    ⟨dim.toNat, vecs, texts.length,
      (texts.zip metas).enum.map (fun p => ⟨p.1, p.2.1, p.2.2⟩)⟩
    (vecs.get ⟨i, hi⟩) i
    (lookupStore_updateStore _ hs₁) hi rfl
    (hdim _ (List.get_mem _ _ _)) hdim huniq hdoc
    ⟨i, texts.get ⟨i, hit⟩, metas.get ⟨i, hmt⟩⟩ he

/-- Witness for the amended C2: batch ["a", "b"] with distinct vectors
[[1]], [[3]]; searching with [3] returns chunk "b" at distance 0, rank 1. -/
theorem similarity_search_roundtrip_witness :
    ∃ (_ : 1 < (["a", "b"] : List String).length)
      (_ : 1 < ([⟨"d", "f", 0, 2⟩, ⟨"d", "f", 1, 2⟩] : List ChunkMeta).length),
      similaritySearch (addDocuments (createStore [] "t2w" 1).1 "t2w" ["a", "b"]
          [[1], [3]] [⟨"d", "f", 0, 2⟩, ⟨"d", "f", 1, 2⟩]).1 "t2w" [3] 1 =
        .ok [⟨1, "b", ⟨"d", "f", 1, 2⟩, 0, 1⟩] :=
  similarity_search_roundtrip [] "t2w" 1 ["a", "b"] [[1], [3]]
    [⟨"d", "f", 0, 2⟩, ⟨"d", "f", 1, 2⟩] 1
    rfl (by decide) (by decide) rfl rfl (by decide) (by decide)
    (by
      intro j hj h
      have hj2 : j < 2 := by simpa using hj
      interval_cases j
      · simp at h
      · rfl)

/-- C4: on a store holding at least one vector with a consistent sidecar
(sidecar list length equal to the index count), a search with `k` greater
than the stored count returns exactly `stored_count` results, ordered
ascending by squared Euclidean distance to the query, each carrying its
1-based rank (its position in the returned list) and, as `score`, the raw
distance of a stored vector whose sidecar entry it resolves to. -/
theorem similarity_search_clamps_and_orders (fs : FS) (cid : String) (s : Store)
    (query : Vec) (k : Int)
    (hs : lookupStore fs cid = some s)
    (hsync : s.documents.length = s.vectors.length)
    (hpos : 0 < s.vectors.length)
    (hk : (s.vectors.length : Int) < k)
    (hq : query.length = s.dimension) :
    ∃ res, similaritySearch fs cid query k = .ok res ∧
      res.length = s.vectors.length ∧
      res.Pairwise (fun a b => a.score ≤ b.score) ∧
      (∀ i (h : i < res.length), (res.get ⟨i, h⟩).rank = i + 1) ∧
      (∀ r ∈ res, ∃ j, ∃ hj : j < s.vectors.length, ∃ hd : j < s.documents.length,
        r.score = sqDist query (s.vectors.get ⟨j, hj⟩) ∧
        r.id = (s.documents.get ⟨j, hd⟩).id ∧
        r.text = (s.documents.get ⟨j, hd⟩).text ∧
        r.meta = (s.documents.get ⟨j, hd⟩).meta) := by
  have hk0 : ¬ k ≤ 0 := by omega
  have hlen0 : s.vectors.length ≠ 0 := by omega
  have hw : ¬ query.length ≠ s.dimension := by simp [hq]
  simp only [similaritySearch, hs]
  rw [if_neg hk0, if_neg hlen0, if_neg hw]
  have hkk : min k.toNat s.vectors.length = s.vectors.length :=
    Nat.min_eq_right (by omega)
  rw [hkk]
  have hslen : (s.vectors.enum.map (fun p => (p.1, sqDist query p.2))).length
      = s.vectors.length := by
    simp [List.enum_length]
  have htake : (sortByDist (s.vectors.enum.map
      (fun p => (p.1, sqDist query p.2)))).take s.vectors.length =
      sortByDist (s.vectors.enum.map (fun p => (p.1, sqDist query p.2))) := by
    rw [show s.vectors.length = (sortByDist (s.vectors.enum.map
        (fun p => (p.1, sqDist query p.2)))).length by
      rw [length_sortByDist, hslen], List.take_length]
  rw [htake]
  have hmemS : ∀ p ∈ sortByDist (s.vectors.enum.map
      (fun p => (p.1, sqDist query p.2))),
      ∃ hj : p.1 < s.vectors.length, p.2 = sqDist query (s.vectors.get ⟨p.1, hj⟩) := by
    intro p hp
    have hp' := mem_sortByDist.1 hp
    obtain ⟨pe, hpe, rfl⟩ := List.mem_map.1 hp'
    obtain ⟨hlt, hget⟩ := mem_enum_spec hpe
    exact ⟨hlt, by rw [hget]⟩
  have hfm : (((sortByDist (s.vectors.enum.map
        (fun p => (p.1, sqDist query p.2)))).enum).filterMap (fun p =>
          if h : p.2.1 < s.documents.length then
            some (⟨(s.documents.get ⟨p.2.1, h⟩).id, (s.documents.get ⟨p.2.1, h⟩).text,
              (s.documents.get ⟨p.2.1, h⟩).meta, p.2.2, p.1 + 1⟩ : SearchResult)
          else none)) =
      (((sortByDist (s.vectors.enum.map
        (fun p => (p.1, sqDist query p.2)))).enum).map (fun p =>
          (⟨(s.documents.getD p.2.1 ⟨0, "", ⟨"", "", 0, 0⟩⟩).id,
            (s.documents.getD p.2.1 ⟨0, "", ⟨"", "", 0, 0⟩⟩).text,
            (s.documents.getD p.2.1 ⟨0, "", ⟨"", "", 0, 0⟩⟩).meta,
            p.2.2, p.1 + 1⟩ : SearchResult))) := by
    apply filterMap_eq_map_of_some
    intro x hx
    have hx2 := snd_mem_of_mem_enum hx
    obtain ⟨hj, _⟩ := hmemS x.2 hx2
    have hd : x.2.1 < s.documents.length := by omega
    rw [dif_pos hd]
    rw [List.getD_eq_get _ _ hd]
  rw [hfm]
  refine ⟨_, rfl, ?_, ?_, ?_, ?_⟩
  · simp [List.enum_length, length_sortByDist, hslen]
  · rw [List.pairwise_map]
    have hpw := pairwise_sortByDist (s.vectors.enum.map
      (fun p => (p.1, sqDist query p.2)))
    have hpe := pairwise_enum_snd _ 0 hpw
    exact hpe.imp (fun h => h)
  · intro i h
    rw [List.get_eq_getElem, List.getElem_map, List.getElem_enum]
  · intro r hr
    obtain ⟨x, hx, rfl⟩ := List.mem_map.1 hr
    have hx2 := snd_mem_of_mem_enum hx
    obtain ⟨hj, hsc⟩ := hmemS x.2 hx2
    have hd : x.2.1 < s.documents.length := by omega
    refine ⟨x.2.1, hj, hd, hsc, ?_, ?_, ?_⟩ <;>
      rw [List.getD_eq_get _ _ hd]

/-- Witness for C4: three stored unit vectors, searched with k = 5 > 3. -/
theorem similarity_search_clamps_and_orders_witness :
    ∃ res, similaritySearch
        [("t4w", ⟨3, [[1, 0, 0], [0, 1, 0], [0, 0, 1]], 3,
          [⟨0, "a", ⟨"d", "f", 0, 3⟩⟩, ⟨1, "b", ⟨"d", "f", 1, 3⟩⟩,
            ⟨2, "c", ⟨"d", "f", 2, 3⟩⟩]⟩)] "t4w" [0, 0, 1] 5 = .ok res ∧
      res.length = 3 ∧
      res.Pairwise (fun a b => a.score ≤ b.score) ∧
      (∀ i (h : i < res.length), (res.get ⟨i, h⟩).rank = i + 1) ∧
      (∀ r ∈ res, ∃ j,
        ∃ hj : j < ([[1, 0, 0], [0, 1, 0], [0, 0, 1]] : List Vec).length,
        ∃ hd : j < ([⟨0, "a", ⟨"d", "f", 0, 3⟩⟩, ⟨1, "b", ⟨"d", "f", 1, 3⟩⟩,
            ⟨2, "c", ⟨"d", "f", 2, 3⟩⟩] : List DocEntry).length,
        r.score = sqDist [0, 0, 1]
          (([[1, 0, 0], [0, 1, 0], [0, 0, 1]] : List Vec).get ⟨j, hj⟩) ∧
        r.id = (([⟨0, "a", ⟨"d", "f", 0, 3⟩⟩, ⟨1, "b", ⟨"d", "f", 1, 3⟩⟩,
            ⟨2, "c", ⟨"d", "f", 2, 3⟩⟩] : List DocEntry).get ⟨j, hd⟩).id ∧
        r.text = (([⟨0, "a", ⟨"d", "f", 0, 3⟩⟩, ⟨1, "b", ⟨"d", "f", 1, 3⟩⟩,
            ⟨2, "c", ⟨"d", "f", 2, 3⟩⟩] : List DocEntry).get ⟨j, hd⟩).text ∧
        r.meta = (([⟨0, "a", ⟨"d", "f", 0, 3⟩⟩, ⟨1, "b", ⟨"d", "f", 1, 3⟩⟩,
            ⟨2, "c", ⟨"d", "f", 2, 3⟩⟩] : List DocEntry).get ⟨j, hd⟩).meta) :=
  similarity_search_clamps_and_orders
    [("t4w", ⟨3, [[1, 0, 0], [0, 1, 0], [0, 0, 1]], 3,
      [⟨0, "a", ⟨"d", "f", 0, 3⟩⟩, ⟨1, "b", ⟨"d", "f", 1, 3⟩⟩,
        ⟨2, "c", ⟨"d", "f", 2, 3⟩⟩]⟩)] "t4w"
    ⟨3, [[1, 0, 0], [0, 1, 0], [0, 0, 1]], 3,
      [⟨0, "a", ⟨"d", "f", 0, 3⟩⟩, ⟨1, "b", ⟨"d", "f", 1, 3⟩⟩,
        ⟨2, "c", ⟨"d", "f", 2, 3⟩⟩]⟩ [0, 0, 1] 5
    rfl rfl (by decide) (by norm_num) rfl

theorem flatMap_eq_nil_of_forall {α β : Type _} (f : α → List β) :
    ∀ l : List α, (∀ x ∈ l, f x = []) → l.flatMap f = [] := by
  intro l h
  induction l with
  | nil => rfl
  | cons x xs ih =>
      rw [List.flatMap_cons, h x (List.mem_cons_self x xs),
        ih (fun y hy => h y (List.mem_cons_of_mem x hy)), List.nil_append]

/-- C8: when every uploaded document of the run yields blank text or an
extraction error, `generate_embeddings` raises a pipeline-level failure, the
chatbot is marked `error`, and no create/add operation on the vector store is
attempted (the filesystem is untouched). -/
theorem generate_embeddings_zero_chunks_aborts (splitText : String → List String) (enc : String → Vec)
    (dim : Int) (cid : String) (docs : List UploadedDoc) (fs : FS)
    (hfail : ∀ d ∈ docs, d.extract = none ∨
      ∃ t, d.extract = some t ∧ isBlank t = true) :
    (generateEmbeddings splitText enc dim cid docs fs).outcome = .error .failure ∧
    (generateEmbeddings splitText enc dim cid docs fs).chatbotStatus = .error ∧
    (generateEmbeddings splitText enc dim cid docs fs).storeOps = [] ∧
    (generateEmbeddings splitText enc dim cid docs fs).fs = fs := by
  have hproc : ∀ d ∈ docs, processDoc splitText d = (.error, []) := by
    intro d hdm
    rcases hfail d hdm with h | ⟨t, ht, hb⟩
    · simp [processDoc, h]
    · simp [processDoc, ht, hb]
  by_cases hde : docs.isEmpty
  · simp [generateEmbeddings, hde]
  · have hchunks : (docs.map (fun d => (d, processDoc splitText d))).flatMap
        (fun p => p.2.2) = ([] : List (String × ChunkMeta)) := by
      apply flatMap_eq_nil_of_forall
      intro p hp
      obtain ⟨d, hdm, rfl⟩ := List.mem_map.1 hp
      rw [hproc d hdm]
    simp [generateEmbeddings, hde, hchunks]
theorem flatMap_congr_forall {α β : Type _} (f g : α → List β) :
    ∀ l : List α, (∀ x ∈ l, f x = g x) → l.flatMap f = l.flatMap g := by
  intro l h
  induction l with
  | nil => rfl
  | cons x xs ih =>
      rw [List.flatMap_cons, List.flatMap_cons, h x (List.mem_cons_self x xs),
        ih (fun y hy => h y (List.mem_cons_of_mem x hy))]

/-- C9: an ingestion run over documents of which exactly one fails extraction
(blank text) does not abort: only the failing document is marked `error`, the
remaining documents are marked `completed`, and their chunks — in document
order — are embedded and stored in the (freshly created) vector store. -/
theorem generate_embeddings_partial_failure (splitText : String → List String) (enc : String → Vec)
    (dim : Int) (cid : String) (pre post : List UploadedDoc)
    (bad : UploadedDoc) (tb : String) (fs : FS)
    (hbad : bad.extract = some tb) (hbb : isBlank tb = true)
    (hgood : ∀ d ∈ pre ++ post, ∃ t, d.extract = some t ∧ isBlank t = false)
    (hsplit : ∀ t, isBlank t = false → splitText t ≠ [])
    (hrem : pre ++ post ≠ [])
    (hnew : lookupStore fs cid = none)
    (hd : 0 < dim)
    (henc : ∀ c, (enc c).length = dim.toNat) :
    ∃ s',
      (generateEmbeddings splitText enc dim cid (pre ++ [bad] ++ post) fs).outcome
        = .ok () ∧
      (generateEmbeddings splitText enc dim cid (pre ++ [bad] ++ post) fs).chatbotStatus
        = .ready ∧
      (generateEmbeddings splitText enc dim cid (pre ++ [bad] ++ post) fs).docStatuses
        = pre.map (fun d => (d.id, DocStatus.completed)) ++ [(bad.id, DocStatus.error)]
          ++ post.map (fun d => (d.id, DocStatus.completed)) ∧
      (generateEmbeddings splitText enc dim cid (pre ++ [bad] ++ post) fs).storeOps
        = [.create dim, .add ((pre ++ post).flatMap
            (fun d => splitText (d.extract.getD "")))] ∧
      lookupStore (generateEmbeddings splitText enc dim cid (pre ++ [bad] ++ post) fs).fs
        cid = some s' ∧
      s'.documents.map DocEntry.text
        = (pre ++ post).flatMap (fun d => splitText (d.extract.getD "")) ∧
      s'.vectors
        = ((pre ++ post).flatMap (fun d => splitText (d.extract.getD ""))).map enc := by
  have hpb : processDoc splitText bad = (.error, []) := by
    simp [processDoc, hbad, hbb]
  have hpg : ∀ d ∈ pre ++ post, processDoc splitText d =
      (.completed, (splitText (d.extract.getD "")).enum.map
        (fun p => (p.2, ⟨d.id, d.filename, p.1,
          (splitText (d.extract.getD "")).length⟩))) := by
    intro d hdm
    obtain ⟨t, ht, hb⟩ := hgood d hdm
    simp [processDoc, ht, hb]
  have hde : ¬ ((pre ++ [bad] ++ post).isEmpty = true) := by
    simp
  have hpairs : ((pre ++ [bad] ++ post).map
      (fun d => (d, processDoc splitText d))).flatMap (fun p => p.2.2) =
      pre.flatMap (fun d => (splitText (d.extract.getD "")).enum.map
        (fun p => (p.2, ⟨d.id, d.filename, p.1,
          (splitText (d.extract.getD "")).length⟩))) ++
      post.flatMap (fun d => (splitText (d.extract.getD "")).enum.map
        (fun p => (p.2, ⟨d.id, d.filename, p.1,
          (splitText (d.extract.getD "")).length⟩))) := by
    rw [List.flatMap_map]
    rw [List.flatMap_append, List.flatMap_append]
    rw [flatMap_congr_forall _ _ pre (fun d hdm => by
      show (processDoc splitText d).2 = _
      rw [hpg d (List.mem_append_left _ hdm)])]
    rw [flatMap_congr_forall _ _ post (fun d hdm => by
      show (processDoc splitText d).2 = _
      rw [hpg d (List.mem_append_right _ hdm)])]
    have hmid : ([bad].flatMap fun d => (processDoc splitText d).2) = [] := by
      rw [List.flatMap_cons, hpb]
      rfl
    rw [hmid, List.append_nil]
  have hmfc : ∀ (L : List String) (F : Nat × String → ChunkMeta),
      ((L.enum.map (fun p => (p.2, F p))).map (fun p => p.1)) = L := by
    intro L F
    rw [List.map_map]
    have hcomp : ((fun p : String × ChunkMeta => p.1) ∘
        fun p : Nat × String => (p.2, F p)) = Prod.snd := rfl
    rw [hcomp, List.enum_map_snd]
  have hchunks : (((pre ++ [bad] ++ post).map
      (fun d => (d, processDoc splitText d))).flatMap (fun p => p.2.2)).map
        (fun p => p.1) =
      (pre ++ post).flatMap (fun d => splitText (d.extract.getD "")) := by
    rw [hpairs, List.map_append, List.flatMap_append]
    rw [List.map_flatMap, List.map_flatMap]
    rw [flatMap_congr_forall _ _ pre (fun d hdm => hmfc _ _)]
    rw [flatMap_congr_forall _ _ post (fun d hdm => hmfc _ _)]
  have hCne : (pre ++ post).flatMap (fun d => splitText (d.extract.getD "")) ≠ [] := by
    obtain ⟨d0, rest, h0⟩ := List.exists_cons_of_ne_nil hrem
    rw [h0, List.flatMap_cons]
    obtain ⟨t, ht, hb⟩ := hgood d0 (by rw [h0]; exact List.mem_cons_self _ _)
    have hS : splitText (d0.extract.getD "") ≠ [] := by
      rw [ht, Option.getD_some]
      exact hsplit t hb
    intro hcontra
    exact hS (List.append_eq_nil.1 hcontra).1
  have hCfst := hpairs ▸ hchunks
  simp only [generateEmbeddings]
  rw [if_neg hde]
  rw [hchunks]
  have hCfalse : ¬ ((((pre ++ post).flatMap
      (fun d => splitText (d.extract.getD ""))).isEmpty) = true) := by
    rw [isEmpty_eq_false_of_ne hCne]
    exact Bool.false_ne_true
  rw [if_neg hCfalse]
  have hls : loadStore fs cid = .error .notFound := by
    simp [loadStore, hnew]
  have hcs : createStore fs cid dim =
      ((cid, (⟨dim.toNat, [], 0, []⟩ : Store)) :: fs, .ok ()) := by
    simp [createStore, hnew, not_le.2 hd]
  simp only [hls, hcs]
  have hblen : ((List.map (fun d => (d, processDoc splitText d))
      (pre ++ [bad] ++ post)).flatMap (fun p => p.2.2)).length =
      ((pre ++ post).flatMap (fun d => splitText (d.extract.getD ""))).length := by
    have h := congrArg List.length hchunks
    rwa [List.length_map] at h
  have hmeta2 : (((List.map (fun d => (d, processDoc splitText d))
      (pre ++ [bad] ++ post)).flatMap (fun p => p.2.2)).map (fun p => p.2)).length =
      ((pre ++ post).flatMap (fun d => splitText (d.extract.getD ""))).length := by
    rw [List.length_map]
    exact hblen
  have hemb2 : (((pre ++ post).flatMap
      (fun d => splitText (d.extract.getD ""))).map enc).length =
      ((pre ++ post).flatMap (fun d => splitText (d.extract.getD ""))).length := by
    rw [List.length_map]
  have hdims2 : ∀ v ∈ ((pre ++ post).flatMap
      (fun d => splitText (d.extract.getD ""))).map enc,
      v.length = (⟨dim.toNat, [], 0, []⟩ : Store).dimension := by
    intro v hv
    obtain ⟨c, hc, rfl⟩ := List.mem_map.1 hv
    exact henc c
  rw [addDocuments_ok (lookupStore_cons_self cid _ fs) hCne hemb2 hmeta2 hdims2]
  dsimp only
  refine ⟨_, rfl, rfl, ?_, rfl,
    lookupStore_updateStore _ (lookupStore_cons_self cid _ fs), ?_, ?_⟩
  · rw [List.map_map, List.map_append, List.map_append]
    congr 1
    · congr 1
      · apply List.map_congr_left
        intro d hdm
        show (d.id, (processDoc splitText d).1) = (d.id, DocStatus.completed)
        rw [hpg d (List.mem_append_left _ hdm)]
      · show [(bad.id, (processDoc splitText bad).1)] = [(bad.id, DocStatus.error)]
        rw [hpb]
    · apply List.map_congr_left
      intro d hdm
      show (d.id, (processDoc splitText d).1) = (d.id, DocStatus.completed)
      rw [hpg d (List.mem_append_right _ hdm)]
  · dsimp only
    rw [List.nil_append, List.map_map]
    have hcomp : (DocEntry.text ∘ fun p : Nat × (String × ChunkMeta) =>
        (⟨0 + p.1, p.2.1, p.2.2⟩ : DocEntry)) = Prod.fst ∘ Prod.snd := rfl
    rw [hcomp, ← List.map_map, List.enum_map_snd,
      List.map_fst_zip _ _ (le_of_eq hmeta2.symm)]
  · dsimp only
    rw [List.nil_append]

/-- Witness for C8: two uploaded documents, one blank and one failing
extraction, over a fresh filesystem. -/
theorem generate_embeddings_zero_chunks_aborts_witness :
    (generateEmbeddings (fun t => [t]) (fun _ => [0]) 1 "t8w"
        [⟨"d1", "f1", some "  "⟩, ⟨"d2", "f2", none⟩] []).outcome
      = .error .failure ∧
    (generateEmbeddings (fun t => [t]) (fun _ => [0]) 1 "t8w"
        [⟨"d1", "f1", some "  "⟩, ⟨"d2", "f2", none⟩] []).chatbotStatus = .error ∧
    (generateEmbeddings (fun t => [t]) (fun _ => [0]) 1 "t8w"
        [⟨"d1", "f1", some "  "⟩, ⟨"d2", "f2", none⟩] []).storeOps = [] ∧
    (generateEmbeddings (fun t => [t]) (fun _ => [0]) 1 "t8w"
        [⟨"d1", "f1", some "  "⟩, ⟨"d2", "f2", none⟩] []).fs = [] :=
  generate_embeddings_zero_chunks_aborts (fun t => [t]) (fun _ => [0]) 1 "t8w"
    [⟨"d1", "f1", some "  "⟩, ⟨"d2", "f2", none⟩] []
    (by
      intro d hdm
      rcases List.mem_cons.1 hdm with rfl | hdm2
      · exact Or.inr ⟨"  ", rfl, by decide⟩
      · rcases List.mem_cons.1 hdm2 with rfl | hdm3
        · exact Or.inl rfl
        · exact absurd hdm3 (List.not_mem_nil d))

/-- Witness for C9: one good document producing one chunk and one blank
document; the run succeeds, only the blank one is marked error, and the good
document's chunk is stored. -/
theorem generate_embeddings_partial_failure_witness :
    ∃ s',
      (generateEmbeddings (fun t => [t]) (fun _ => [0]) 1 "t9w"
        ([⟨"g1", "f1", some "hello"⟩] ++ [⟨"b1", "f2", some " "⟩] ++ [])
        []).outcome = .ok () ∧
      (generateEmbeddings (fun t => [t]) (fun _ => [0]) 1 "t9w"
        ([⟨"g1", "f1", some "hello"⟩] ++ [⟨"b1", "f2", some " "⟩] ++ [])
        []).chatbotStatus = .ready ∧
      (generateEmbeddings (fun t => [t]) (fun _ => [0]) 1 "t9w"
        ([⟨"g1", "f1", some "hello"⟩] ++ [⟨"b1", "f2", some " "⟩] ++ [])
        []).docStatuses =
        [("g1", DocStatus.completed)] ++ [("b1", DocStatus.error)] ++ [] ∧
      (generateEmbeddings (fun t => [t]) (fun _ => [0]) 1 "t9w"
        ([⟨"g1", "f1", some "hello"⟩] ++ [⟨"b1", "f2", some " "⟩] ++ [])
        []).storeOps = [.create 1, .add ["hello"]] ∧
      lookupStore (generateEmbeddings (fun t => [t]) (fun _ => [0]) 1 "t9w"
        ([⟨"g1", "f1", some "hello"⟩] ++ [⟨"b1", "f2", some " "⟩] ++ [])
        []).fs "t9w" = some s' ∧
      s'.documents.map DocEntry.text = ["hello"] ∧
      s'.vectors = [[0]] :=
  generate_embeddings_partial_failure (fun t => [t]) (fun _ => [0]) 1 "t9w"
    [⟨"g1", "f1", some "hello"⟩] [] ⟨"b1", "f2", some " "⟩ " " []
    rfl (by decide)
    (by
      intro d hdm
      rcases List.mem_cons.1 hdm with rfl | hdm2
      · exact ⟨"hello", rfl, by decide⟩
      · exact absurd hdm2 (List.not_mem_nil d))
    (fun t _ => by simp)
    (by simp)
    rfl (by decide) (fun c => rfl)

end Yanck

